import Mathlib

/-!
Shallow embedding of the ScholarAI research pipeline
(`src/beginner/submissions/team-members/Amine KETTANI/ScholarAI.py`).

The script drives an LLM chat-completion provider through a fixed sequence:
split a query into subtopics (parsing the reply with Python `eval`), research
each subtopic, run a bounded "needs more research" judge loop (at most two
extra passes), and synthesize a final report.

Modelling conventions:
  * The chat-completion provider (`client.chat.completions.create` followed by
    `response.choices[0].message.content`) is a deterministic function from the
    prompt string to either the completion text or a provider-error message.
  * Every call threads an explicit trace: the list of prompts sent so far, in
    order.  A raised Python exception is an `Except.error` value.
  * Python `str.strip` / `str.lower` are modelled character-wise over ASCII
    (`pyStrip` / `pyLower`); Python `str(list_of_str)` is `pyListRepr`.
  * `asyncio.gather` over the per-subtopic research coroutines is modelled as a
    left-to-right traversal: results come back in argument order, and the first
    raised exception aborts the whole fan-out.
-/

set_option maxRecDepth 10000

namespace ScholarAI

/-- Python exceptions that can abort a pipeline run. -/
inductive PErr where
  /-- The underlying chat-completion call raised (network/auth/rate-limit). -/
  | provider (msg : String)
  /-- The stripped splitter reply `text` was not a plain list-of-strings
  literal, so `eval(text)` hands it to the Python evaluator as code: it raises
  an arbitrary exception or executes arbitrary instructions.  No structured
  `MalformedSplitResponse`-style error exists anywhere in the source. -/
  | pythonEval (text : String)
  deriving DecidableEq, Repr

/-- The chat-completion provider, modelled as a deterministic function from the
prompt string to either the completion text or a provider-error message. -/
def Provider : Type := String → Except String String

/-- The prompts sent to the provider so far, in order. -/
abbrev Trace := List String

/-- One chat-completion round trip: the prompt is recorded in the trace (the
call is issued either way) and a provider failure becomes `PErr.provider`. -/
def callLLM (client : Provider) (prompt : String) (tr : Trace) :
    Except PErr String × Trace :=
  match client prompt with
  | .ok text => (.ok text, tr ++ [prompt])
  | .error e => (.error (PErr.provider e), tr ++ [prompt])

/-- Drop leading characters satisfying `Char.isWhitespace`. -/
def stripLeft : List Char → List Char
  | [] => []
  | c :: cs => if c.isWhitespace then stripLeft cs else c :: cs

/-- Python `str.strip()`: drop whitespace from both ends. -/
def pyStrip (s : String) : String :=
  ⟨(stripLeft (stripLeft s.data.reverse).reverse)⟩

/-- Python `str.lower()` (ASCII model). -/
def pyLower (s : String) : String :=
  ⟨s.data.map Char.toLower⟩

/-- The single-quote character, written by code point to keep the source
free of quote-escape noise. -/
def squote : Char := Char.ofNat 39

/-- Python `repr` of a string (printable-ASCII model): single quotes unless the
string contains a single quote and no double quote; backslash, the chosen
quote, and the common control characters are escaped. -/
def pyStrRepr (s : String) : String :=
  let q : Char := if s.data.contains squote && !(s.data.contains '"') then '"' else squote
  let esc : Char → List Char := fun c =>
    if c = '\\' then ['\\', '\\']
    else if c = q then ['\\', q]
    else if c = '\n' then ['\\', 'n']
    else if c = '\r' then ['\\', 'r']
    else if c = '\t' then ['\\', 't']
    else [c]
  ⟨q :: (s.data.flatMap esc) ++ [q]⟩

/-- Python `str` of a list of strings, as interpolated by the f-strings:
`['a', 'b', 'c']`. -/
def pyListRepr (xs : List String) : String :=
  "[" ++ String.intercalate ", " (xs.map pyStrRepr) ++ "]"

/-- The f-string prompt of `split_into_subtopics`. -/
def splitPrompt (query : String) : String :=
  "\n    Break the following question into 3 clear research subtopics:\n    \""
    ++ query
    ++ "\"\n    Return ONLY a Python list, example: [\"sub1\", \"sub2\", \"sub3\"].\n    "

/-- The f-string prompt of `research_subtopic`. -/
def researchPrompt (subtopic : String) : String :=
  "\n    Research this subtopic and write a concise summary:\n    \""
    ++ subtopic
    ++ "\"\n    "

/-- The f-string prompt of `synthesize_report`. -/
def synthPrompt (query : String) (findings : List String) : String :=
  "\n    Create a final, well-structured report for the query:\n    \""
    ++ query
    ++ "\"\n\n    Here are the research findings:\n    "
    ++ pyListRepr findings
    ++ "\n\n    Return a clean narrative summary with bullet points where needed.\n    "

/-- The fixed opening text of the judge prompt, before the interpolated
findings. -/
def judgePromptHead : String :=
  "\n    Evaluate whether the following findings appear thorough enough:\n\n    "

/-- The f-string prompt of `needs_more_research`. -/
def judgePrompt (findings : List String) : String :=
  judgePromptHead
    ++ pyListRepr findings
    ++ "\n\n    Answer with ONLY: \"yes\" or \"no\".\n    \"yes\" = more research is needed.\n    \"no\" = sufficient.\n    "

/-- Decode one Python string-escape character. -/
def decodeEsc (e : Char) : Option Char :=
  if e = 'n' then some '\n'
  else if e = 't' then some '\t'
  else if e = 'r' then some '\r'
  else if e = '\\' then some '\\'
  else if e = squote then some squote
  else if e = '"' then some '"'
  else none

/-- Parse the body of a Python string literal delimited by quote `q`,
returning the decoded string and the characters after the closing quote. -/
def parseStrBody (q : Char) : List Char → Option (String × List Char)
  | [] => none
  | c :: cs =>
    if c = q then some ("", cs)
    else if c = '\\' then
      match cs with
      | [] => none
      | e :: cs2 =>
        match decodeEsc e with
        | some d =>
          match parseStrBody q cs2 with
          | some (s, rest) => some (⟨d :: s.data⟩, rest)
          | none => none
        | none => none
    else
      match parseStrBody q cs with
      | some (s, rest) => some (⟨c :: s.data⟩, rest)
      | none => none

/-- Parse the comma-separated items of a Python list-of-strings literal, after
the opening bracket; `fuel` bounds the recursion by the input length. -/
def parseItems : Nat → List Char → Option (List String × List Char)
  | 0, _ => none
  | Nat.succ fuel, cs =>
    match stripLeft cs with
    | [] => none
    | c :: cs1 =>
      if c = squote || c = '"' then
        match parseStrBody c cs1 with
        | none => none
        | some (s, rest) =>
          match stripLeft rest with
          | ']' :: rest2 => some ([s], rest2)
          | ',' :: rest2 =>
            match stripLeft rest2 with
            | ']' :: rest3 => some ([s], rest3)
            | _ =>
              match parseItems fuel rest2 with
              | some (ss, rest3) => some (s :: ss, rest3)
              | none => none
          | _ => none
      else none

/-- Decide whether `text` is a plain Python list-of-strings literal, the one
shape of splitter reply on which `eval(text)` simply returns a list of
strings.  Anything else is arbitrary Python code in the eyes of `eval`. -/
def parsePyStrList (text : String) : Option (List String) :=
  match stripLeft text.data with
  | '[' :: cs =>
    match stripLeft cs with
    | ']' :: rest => if stripLeft rest = [] then some [] else none
    | _ =>
      match parseItems (cs.length + 1) cs with
      | some (ss, rest) => if stripLeft rest = [] then some ss else none
      | none => none
  | _ => none

/-- Stage 1 (`split_into_subtopics`): one completion call, strip the reply,
then `eval` it.  When the stripped text is a plain list-of-strings literal,
`eval` returns that list; on every other text, `eval` treats the reply as
Python code (modelled as the run-aborting `PErr.pythonEval`), never as a
structured parse error. -/
def split_into_subtopics (client : Provider) (query : String) (tr : Trace) :
    Except PErr (List String) × Trace :=
  match callLLM client (splitPrompt query) tr with
  | (.error e, tr1) => (.error e, tr1)
  | (.ok response, tr1) =>
    let text := pyStrip response
    match parsePyStrList text with
    | some xs => (.ok xs, tr1)
    | none => (.error (PErr.pythonEval text), tr1)

/-- Stage 2 (`research_subtopic`): one completion call, reply stripped. -/
def research_subtopic (client : Provider) (subtopic : String) (tr : Trace) :
    Except PErr String × Trace :=
  match callLLM client (researchPrompt subtopic) tr with
  | (.error e, tr1) => (.error e, tr1)
  | (.ok response, tr1) => (.ok (pyStrip response), tr1)

/-- The research fan-out
`await asyncio.gather(*[research_subtopic(s) for s in subtopics])`: results in
argument order, first raised exception aborts the whole pass. -/
def researchAll (client : Provider) (subs : List String) (tr : Trace) :
    Except PErr (List String) × Trace :=
  match subs with
  | [] => (.ok [], tr)
  | s :: rest =>
    match research_subtopic client s tr with
    | (.error e, tr1) => (.error e, tr1)
    | (.ok f, tr1) =>
      match researchAll client rest tr1 with
      | (.error e, tr2) => (.error e, tr2)
      | (.ok fs, tr2) => (.ok (f :: fs), tr2)

/-- Stage 4 (`needs_more_research`): one completion call; the reply is
stripped, lower-cased and compared with `"yes"`.  Only a raised provider
exception escapes; every reply string yields a boolean. -/
def needs_more_research (client : Provider) (findings : List String) (tr : Trace) :
    Except PErr Bool × Trace :=
  match callLLM client (judgePrompt findings) tr with
  | (.error e, tr1) => (.error e, tr1)
  | (.ok response, tr1) => (.ok (decide (pyLower (pyStrip response) = "yes")), tr1)

/-- Stage 3 (`synthesize_report`): one completion call, reply stripped. -/
def synthesize_report (client : Provider) (query : String) (findings : List String)
    (tr : Trace) : Except PErr String × Trace :=
  match callLLM client (synthPrompt query findings) tr with
  | (.error e, tr1) => (.error e, tr1)
  | (.ok response, tr1) => (.ok (pyStrip response), tr1)

/-- The `for _ in range(2)` judge loop of `research_pipeline`: consult the
judge; on `True` redo the full research fan-out and continue, on `False`
break.  Returns the final findings, the number of extra research passes
completed, and the trace. -/
def extraPasses (client : Provider) (subtopics : List String) :
    Nat → List String → Trace → Except PErr (List String) × Nat × Trace
  | 0, findings, tr => (.ok findings, 0, tr)
  | Nat.succ n, findings, tr =>
    match needs_more_research client findings tr with
    | (.error e, tr1) => (.error e, 0, tr1)
    | (.ok false, tr1) => (.ok findings, 0, tr1)
    | (.ok true, tr1) =>
      match researchAll client subtopics tr1 with
      | (.error e, tr2) => (.error e, 0, tr2)
      | (.ok fs, tr2) =>
        match extraPasses client subtopics n fs tr2 with
        | (res, k, tr3) => (res, k + 1, tr3)

/-- The triple `(subtopics, findings, final_report)` returned by
`research_pipeline`. -/
structure PipelineResult where
  subtopics : List String
  findings : List String
  final_report : String
  deriving DecidableEq, Repr

/-- The whole `research_pipeline` coroutine.  Besides the source's result
triple (or the raised exception) the model reports two derived observables:
the number of completed research passes and the trace of prompts sent. -/
def research_pipeline (client : Provider) (user_query : String) :
    Except PErr PipelineResult × Nat × Trace :=
  match split_into_subtopics client user_query [] with
  | (.error e, tr) => (.error e, 0, tr)
  | (.ok subtopics, tr) =>
    match researchAll client subtopics tr with
    | (.error e, tr1) => (.error e, 0, tr1)
    | (.ok findings, tr1) =>
      match extraPasses client subtopics 2 findings tr1 with
      | (.error e, k, tr2) => (.error e, 1 + k, tr2)
      | (.ok findings1, k, tr2) =>
        match synthesize_report client user_query findings1 tr2 with
        | (.error e, tr3) => (.error e, 1 + k, tr3)
        | (.ok report, tr3) => (.ok ⟨subtopics, findings1, report⟩, 1 + k, tr3)

/-- The judge prompts are exactly the trace entries beginning with the fixed
judge-prompt opening text. -/
def isJudgeCall (p : String) : Bool :=
  judgePromptHead.data.isPrefixOf p.data

/-- Number of judge consultations recorded in a trace. -/
def countJudgeCalls (tr : Trace) : Nat :=
  tr.countP isJudgeCall

/-- Holds when the provider answers the prompt rather than raising. -/
def callSucceeds (client : Provider) (p : String) : Prop :=
  ∃ r, client p = .ok r

/-- Test provider whose splitter reply is prose, not a list literal. -/
def provSplitNotAList : Provider := fun p =>
  if p = splitPrompt "Compare solar vs wind energy" then .ok "not a list" else .ok "unused"

/-- Test provider: three subtopics, every judge consultation answers `yes`. -/
def provAllYes : Provider := fun p =>
  if isJudgeCall p then .ok "yes"
  else if p = splitPrompt "q" then .ok "[\"a\", \"b\", \"c\"]"
  else .ok "sum"

/-- Test provider: three subtopics, every judge consultation answers `No`
(with stray whitespace, to exercise the normalization). -/
def provJudgeNo : Provider := fun p =>
  if isJudgeCall p then .ok " No"
  else if p = splitPrompt "q" then .ok "[\"a\", \"b\", \"c\"]"
  else .ok "sum"

/-- Test provider whose splitter reply is a well-formed list literal of only
two strings. -/
def provTwoSubs : Provider := fun p =>
  if isJudgeCall p then .ok "no"
  else if p = splitPrompt "q" then .ok "[\"a\", \"b\"]"
  else .ok "s"

/-- The provider of the spec's worked example: three named subtopics, one
summary each, judge says `No` on the first check, then a final report. -/
def provScenario : Provider := fun p =>
  if p = splitPrompt "Compare solar vs wind energy" then
    .ok "[\"Solar cost trends\", \"Wind cost trends\", \"Environmental impact\"]"
  else if p = researchPrompt "Solar cost trends" then .ok " summary one "
  else if p = researchPrompt "Wind cost trends" then .ok "summary two"
  else if p = researchPrompt "Environmental impact" then .ok "summary three"
  else if isJudgeCall p then .ok "No"
  else .ok "Final report."

/-- Test provider whose split call raises a provider error. -/
def provFailSplit : Provider := fun p =>
  if p = splitPrompt "q" then .error "network error" else .ok "unused"

/-- A split prompt always opens with `Break`, never with the judge opening. -/
theorem isJudgeCall_splitPrompt (q : String) : isJudgeCall (splitPrompt q) = false := rfl

/-- A research prompt always opens with `Research`, never with the judge
opening. -/
theorem isJudgeCall_researchPrompt (s : String) : isJudgeCall (researchPrompt s) = false := rfl

/-- A synthesis prompt always opens with `Create`, never with the judge
opening. -/
theorem isJudgeCall_synthPrompt (q : String) (fs : List String) :
    isJudgeCall (synthPrompt q fs) = false := rfl

/-- Every judge prompt opens with the judge opening text. -/
theorem isJudgeCall_judgePrompt (fs : List String) : isJudgeCall (judgePrompt fs) = true := rfl

/-- The value returned by a call does not depend on the trace accumulated so
far, and the call appends exactly its own prompt. -/
theorem callLLM_shift (c : Provider) (p : String) (tr : Trace) :
    callLLM c p tr = ((callLLM c p []).1, tr ++ (callLLM c p []).2) := by
  cases h : c p <;> simp [callLLM, h]

/-- Trace-independence of `research_subtopic`. -/
theorem research_subtopic_shift (c : Provider) (s : String) (tr : Trace) :
    research_subtopic c s tr =
      ((research_subtopic c s []).1, tr ++ (research_subtopic c s []).2) := by
  cases h : c (researchPrompt s) <;> simp [research_subtopic, callLLM, h]

/-- Trace-independence of the research fan-out. -/
theorem researchAll_shift (c : Provider) (subs : List String) :
    ∀ tr : Trace,
      researchAll c subs tr = ((researchAll c subs []).1, tr ++ (researchAll c subs []).2) := by
  induction subs with
  | nil => intro tr; simp [researchAll]
  | cons s rest ih =>
    intro tr
    cases h : c (researchPrompt s) with
    | ok v =>
      simp only [researchAll, research_subtopic, callLLM, h]
      rw [ih (tr ++ [researchPrompt s]), ih ([] ++ [researchPrompt s])]
      cases hr : (researchAll c rest []).1 <;> simp
    | error e =>
      simp [researchAll, research_subtopic, callLLM, h]

/-- Trace-independence of `needs_more_research`. -/
theorem needs_more_research_shift (c : Provider) (fs : List String) (tr : Trace) :
    needs_more_research c fs tr =
      ((needs_more_research c fs []).1, tr ++ (needs_more_research c fs []).2) := by
  cases h : c (judgePrompt fs) <;> simp [needs_more_research, callLLM, h]

/-- Trace-independence of `synthesize_report`. -/
theorem synthesize_report_shift (c : Provider) (q : String) (fs : List String) (tr : Trace) :
    synthesize_report c q fs tr =
      ((synthesize_report c q fs []).1, tr ++ (synthesize_report c q fs []).2) := by
  cases h : c (synthPrompt q fs) <;> simp [synthesize_report, callLLM, h]

/-- Evaluation of the judge on a reply string: the boolean is the stripped,
lower-cased comparison with `yes`, and no error is possible. -/
theorem needs_more_research_eval (c : Provider) (fs : List String) (tr : Trace) (r : String)
    (h : c (judgePrompt fs) = .ok r) :
    needs_more_research c fs tr =
      (.ok (decide (pyLower (pyStrip r) = "yes")), tr ++ [judgePrompt fs]) := by
  simp [needs_more_research, callLLM, h]

/-- A successful fan-out pairs every subtopic with the summary produced by its
own research call. -/
theorem researchAll_align (c : Provider) :
    ∀ (subs : List String) (tr fs : List String) (tr1 : Trace),
      researchAll c subs tr = (.ok fs, tr1) →
      List.Forall₂ (fun s f => (research_subtopic c s []).1 = .ok f) subs fs := by
  intro subs
  induction subs with
  | nil =>
    intro tr fs tr1 h
    simp only [researchAll, Prod.mk.injEq, Except.ok.injEq] at h
    rw [← h.1]
    exact List.Forall₂.nil
  | cons s rest ih =>
    intro tr fs tr1 h
    simp only [researchAll] at h
    rw [research_subtopic_shift c s tr] at h
    cases hs : (research_subtopic c s []).1 with
    | error e => rw [hs] at h; simp at h
    | ok v =>
      rw [hs] at h
      simp only at h
      cases hr : researchAll c rest (tr ++ (research_subtopic c s []).2) with
      | mk res tr2 =>
        rw [hr] at h
        cases res with
        | error e => simp at h
        | ok fs2 =>
          simp only [Prod.mk.injEq, Except.ok.injEq] at h
          rw [← h.1]
          exact List.Forall₂.cons hs (ih _ fs2 tr2 hr)

/-- The judge loop either keeps the findings it was given or ends with the
output of a fresh full fan-out over the same subtopic list: findings are
replaced wholesale, never merged. -/
theorem extraPasses_findings (c : Provider) (subs : List String) :
    ∀ (fuel : Nat) (fs : List String) (tr : Trace) (res : List String) (k : Nat) (tr1 : Trace),
      extraPasses c subs fuel fs tr = (.ok res, k, tr1) →
      res = fs ∨ (researchAll c subs []).1 = .ok res := by
  intro fuel
  induction fuel with
  | zero =>
    intro fs tr res k tr1 h
    simp only [extraPasses, Prod.mk.injEq, Except.ok.injEq] at h
    exact Or.inl h.1.symm
  | succ n ih =>
    intro fs tr res k tr1 h
    simp only [extraPasses] at h
    cases hj : needs_more_research c fs tr with
    | mk jres tr2 =>
      rw [hj] at h
      cases jres with
      | error e => simp at h
      | ok b =>
        cases b with
        | false =>
          simp only [Prod.mk.injEq, Except.ok.injEq] at h
          exact Or.inl h.1.symm
        | true =>
          simp only at h
          cases hr : researchAll c subs tr2 with
          | mk rres tr3 =>
            rw [hr] at h
            cases rres with
            | error e => simp at h
            | ok fs2 =>
              simp only at h
              cases he : extraPasses c subs n fs2 tr3 with
              | mk res2 ktr =>
                rw [he] at h
                simp only [Prod.mk.injEq] at h
                have hres2 : res2 = .ok res := by
                  rw [h.1]
                have := ih fs2 tr3 res ktr.1 ktr.2 (by rw [he, hres2])
                rcases this with h1 | h2
                · right
                  rw [researchAll_shift c subs tr2] at hr
                  have : (researchAll c subs []).1 = .ok fs2 := by
                    have := congrArg Prod.fst hr
                    simpa using this
                  rw [this, h1]
                · exact Or.inr h2

/-- A call that came back with a value was answered by the provider, and it
appended exactly its own prompt to the trace. -/
theorem callLLM_ok (c : Provider) (p : String) (tr : Trace) (v : String) (tr1 : Trace)
    (h : callLLM c p tr = (.ok v, tr1)) : c p = .ok v ∧ tr1 = tr ++ [p] := by
  cases hc : c p with
  | ok w => simp [callLLM, hc] at h; simp [h, hc]
  | error e => simp [callLLM, hc] at h

/-- A successful split leaves a trace of answered prompts. -/
theorem split_calls (c : Provider) (q : String) (tr : Trace) (xs : List String) (tr1 : Trace)
    (h : split_into_subtopics c q tr = (.ok xs, tr1))
    (hok : ∀ p ∈ tr, callSucceeds c p) : ∀ p ∈ tr1, callSucceeds c p := by
  cases hc : c (splitPrompt q) with
  | error e => simp [split_into_subtopics, callLLM, hc] at h
  | ok v =>
    simp only [split_into_subtopics, callLLM, hc] at h
    have htr : tr1 = tr ++ [splitPrompt q] := by
      cases hp : parsePyStrList (pyStrip v) <;> rw [hp] at h <;> simp at h <;> exact h.2.symm
    intro p hp
    rw [htr] at hp
    rcases List.mem_append.mp hp with hmem | hmem
    · exact hok p hmem
    · rw [List.mem_singleton.mp hmem]
      exact ⟨v, hc⟩

/-- A successful research call leaves a trace of answered prompts. -/
theorem research_subtopic_calls (c : Provider) (s : String) (tr : Trace) (v : String)
    (tr1 : Trace) (h : research_subtopic c s tr = (.ok v, tr1))
    (hok : ∀ p ∈ tr, callSucceeds c p) : ∀ p ∈ tr1, callSucceeds c p := by
  cases hc : c (researchPrompt s) with
  | error e => simp [research_subtopic, callLLM, hc] at h
  | ok w =>
    simp only [research_subtopic, callLLM, hc, Prod.mk.injEq, Except.ok.injEq] at h
    intro p hp
    rw [← h.2] at hp
    rcases List.mem_append.mp hp with hmem | hmem
    · exact hok p hmem
    · rw [List.mem_singleton.mp hmem]
      exact ⟨w, hc⟩

/-- A successful research fan-out leaves a trace of answered prompts. -/
theorem researchAll_calls (c : Provider) :
    ∀ (subs : List String) (tr : Trace) (fs : List String) (tr1 : Trace),
      researchAll c subs tr = (.ok fs, tr1) →
      (∀ p ∈ tr, callSucceeds c p) → ∀ p ∈ tr1, callSucceeds c p := by
  intro subs
  induction subs with
  | nil =>
    intro tr fs tr1 h hok
    simp only [researchAll, Prod.mk.injEq] at h
    rw [← h.2]
    exact hok
  | cons s rest ih =>
    intro tr fs tr1 h hok
    simp only [researchAll] at h
    cases hs : research_subtopic c s tr with
    | mk sres tr2 =>
      rw [hs] at h
      cases sres with
      | error e => simp at h
      | ok v =>
        simp only at h
        cases hr : researchAll c rest tr2 with
        | mk rres tr3 =>
          rw [hr] at h
          cases rres with
          | error e => simp at h
          | ok fs2 =>
            simp only [Prod.mk.injEq, Except.ok.injEq] at h
            rw [← h.2]
            exact ih tr2 fs2 tr3 hr (research_subtopic_calls c s tr v tr2 hs hok)

/-- A judge consultation that returned leaves a trace of answered prompts. -/
theorem needs_more_research_calls (c : Provider) (fs : List String) (tr : Trace) (b : Bool)
    (tr1 : Trace) (h : needs_more_research c fs tr = (.ok b, tr1))
    (hok : ∀ p ∈ tr, callSucceeds c p) : ∀ p ∈ tr1, callSucceeds c p := by
  cases hc : c (judgePrompt fs) with
  | error e => simp [needs_more_research, callLLM, hc] at h
  | ok w =>
    simp only [needs_more_research, callLLM, hc, Prod.mk.injEq, Except.ok.injEq] at h
    intro p hp
    rw [← h.2] at hp
    rcases List.mem_append.mp hp with hmem | hmem
    · exact hok p hmem
    · rw [List.mem_singleton.mp hmem]
      exact ⟨w, hc⟩

/-- A successful synthesis leaves a trace of answered prompts. -/
theorem synthesize_report_calls (c : Provider) (q : String) (fs : List String) (tr : Trace)
    (v : String) (tr1 : Trace) (h : synthesize_report c q fs tr = (.ok v, tr1))
    (hok : ∀ p ∈ tr, callSucceeds c p) : ∀ p ∈ tr1, callSucceeds c p := by
  cases hc : c (synthPrompt q fs) with
  | error e => simp [synthesize_report, callLLM, hc] at h
  | ok w =>
    simp only [synthesize_report, callLLM, hc, Prod.mk.injEq, Except.ok.injEq] at h
    intro p hp
    rw [← h.2] at hp
    rcases List.mem_append.mp hp with hmem | hmem
    · exact hok p hmem
    · rw [List.mem_singleton.mp hmem]
      exact ⟨w, hc⟩

/-- A judge loop that ran to a value leaves a trace of answered prompts. -/
theorem extraPasses_calls (c : Provider) (subs : List String) :
    ∀ (fuel : Nat) (fs : List String) (tr : Trace) (res : List String) (k : Nat) (tr1 : Trace),
      extraPasses c subs fuel fs tr = (.ok res, k, tr1) →
      (∀ p ∈ tr, callSucceeds c p) → ∀ p ∈ tr1, callSucceeds c p := by
  intro fuel
  induction fuel with
  | zero =>
    intro fs tr res k tr1 h hok
    simp only [extraPasses, Prod.mk.injEq] at h
    rw [← h.2.2]
    exact hok
  | succ n ih =>
    intro fs tr res k tr1 h hok
    simp only [extraPasses] at h
    cases hj : needs_more_research c fs tr with
    | mk jres tr2 =>
      rw [hj] at h
      cases jres with
      | error e => simp at h
      | ok b =>
        cases b with
        | false =>
          simp only [Prod.mk.injEq] at h
          rw [← h.2.2]
          exact needs_more_research_calls c fs tr false tr2 hj hok
        | true =>
          simp only at h
          cases hr : researchAll c subs tr2 with
          | mk rres tr3 =>
            rw [hr] at h
            cases rres with
            | error e => simp at h
            | ok fs2 =>
              simp only at h
              cases he : extraPasses c subs n fs2 tr3 with
              | mk res2 ktr =>
                rw [he] at h
                simp only [Prod.mk.injEq] at h
                have hres2 : res2 = .ok res := h.1
                have htr1 : ktr.2 = tr1 := h.2.2
                have hok2 := needs_more_research_calls c fs tr true tr2 hj hok
                have hok3 := researchAll_calls c subs tr2 fs2 tr3 hr hok2
                rw [← htr1]
                exact ih fs2 tr3 res ktr.1 ktr.2 (by rw [he, hres2]) hok3

/-- Judge-call counting distributes over trace concatenation. -/
theorem countJudgeCalls_append (tr δ : Trace) :
    countJudgeCalls (tr ++ δ) = countJudgeCalls tr + countJudgeCalls δ :=
  List.countP_append _ _ _

/-- The split stage consults no judge, whatever the outcome. -/
theorem split_count (c : Provider) (q : String) (tr : Trace) (res : Except PErr (List String))
    (tr1 : Trace) (h : split_into_subtopics c q tr = (res, tr1)) :
    countJudgeCalls tr1 = countJudgeCalls tr := by
  cases hc : c (splitPrompt q) with
  | error e =>
    simp only [split_into_subtopics, callLLM, hc, Prod.mk.injEq] at h
    rw [← h.2, countJudgeCalls_append]
    simp [countJudgeCalls, List.countP, List.countP.go, isJudgeCall_splitPrompt]
  | ok v =>
    simp only [split_into_subtopics, callLLM, hc] at h
    have : tr1 = tr ++ [splitPrompt q] := by
      cases hp : parsePyStrList (pyStrip v) <;> rw [hp] at h <;> simp at h <;> exact h.2.symm
    rw [this, countJudgeCalls_append]
    simp [countJudgeCalls, List.countP, List.countP.go, isJudgeCall_splitPrompt]

/-- The research fan-out consults no judge, whatever the outcome. -/
theorem researchAll_count (c : Provider) :
    ∀ (subs : List String) (tr : Trace) (res : Except PErr (List String)) (tr1 : Trace),
      researchAll c subs tr = (res, tr1) →
      countJudgeCalls tr1 = countJudgeCalls tr := by
  intro subs
  induction subs with
  | nil =>
    intro tr res tr1 h
    simp only [researchAll, Prod.mk.injEq] at h
    rw [← h.2]
  | cons s rest ih =>
    intro tr res tr1 h
    simp only [researchAll] at h
    have hstep : ∀ (sres : Except PErr String) (tr2 : Trace),
        research_subtopic c s tr = (sres, tr2) → countJudgeCalls tr2 = countJudgeCalls tr := by
      intro sres tr2 hs
      cases hc : c (researchPrompt s) <;>
        simp only [research_subtopic, callLLM, hc, Prod.mk.injEq] at hs <;>
        rw [← hs.2, countJudgeCalls_append] <;>
        simp [countJudgeCalls, List.countP, List.countP.go, isJudgeCall_researchPrompt]
    cases hs : research_subtopic c s tr with
    | mk sres tr2 =>
      rw [hs] at h
      cases sres with
      | error e =>
        simp only [Prod.mk.injEq] at h
        rw [← h.2]
        exact hstep _ tr2 hs
      | ok v =>
        simp only at h
        cases hr : researchAll c rest tr2 with
        | mk rres tr3 =>
          rw [hr] at h
          have h3 := ih tr2 rres tr3 hr
          cases rres with
          | error e =>
            simp only [Prod.mk.injEq] at h
            rw [← h.2, h3]
            exact hstep _ tr2 hs
          | ok fs2 =>
            simp only [Prod.mk.injEq] at h
            rw [← h.2, h3]
            exact hstep _ tr2 hs

/-- Each judge consultation adds exactly one judge call to the trace. -/
theorem needs_count (c : Provider) (fs : List String) (tr : Trace)
    (res : Except PErr Bool) (tr1 : Trace) (h : needs_more_research c fs tr = (res, tr1)) :
    countJudgeCalls tr1 = countJudgeCalls tr + 1 := by
  cases hc : c (judgePrompt fs) <;>
    simp only [needs_more_research, callLLM, hc, Prod.mk.injEq] at h <;>
    rw [← h.2, countJudgeCalls_append] <;>
    simp [countJudgeCalls, List.countP, List.countP.go, isJudgeCall_judgePrompt]

/-- The synthesis stage consults no judge, whatever the outcome. -/
theorem synth_count (c : Provider) (q : String) (fs : List String) (tr : Trace)
    (res : Except PErr String) (tr1 : Trace) (h : synthesize_report c q fs tr = (res, tr1)) :
    countJudgeCalls tr1 = countJudgeCalls tr := by
  cases hc : c (synthPrompt q fs) <;>
    simp only [synthesize_report, callLLM, hc, Prod.mk.injEq] at h <;>
    rw [← h.2, countJudgeCalls_append] <;>
    simp [countJudgeCalls, List.countP, List.countP.go, isJudgeCall_synthPrompt]

/-- The judge loop consults the judge at most `fuel` times, and exactly `fuel`
times when it completes all `fuel` extra passes. -/
theorem extraPasses_count (c : Provider) (subs : List String) :
    ∀ (fuel : Nat) (fs : List String) (tr : Trace) (res : Except PErr (List String))
      (k : Nat) (tr1 : Trace),
      extraPasses c subs fuel fs tr = (res, k, tr1) →
      countJudgeCalls tr1 ≤ countJudgeCalls tr + fuel ∧
        (k = fuel → countJudgeCalls tr1 = countJudgeCalls tr + fuel) := by
  intro fuel
  induction fuel with
  | zero =>
    intro fs tr res k tr1 h
    simp only [extraPasses, Prod.mk.injEq] at h
    rw [← h.2.2]
    exact ⟨Nat.le_refl _, fun _ => rfl⟩
  | succ n ih =>
    intro fs tr res k tr1 h
    simp only [extraPasses] at h
    cases hj : needs_more_research c fs tr with
    | mk jres tr2 =>
      rw [hj] at h
      have hc2 := needs_count c fs tr jres tr2 hj
      cases jres with
      | error e =>
        simp only [Prod.mk.injEq] at h
        refine ⟨?_, fun hk => absurd hk.symm (by rw [← h.2.1]; exact Nat.succ_ne_zero n)⟩
        rw [← h.2.2, hc2]
        omega
      | ok b =>
        cases b with
        | false =>
          simp only [Prod.mk.injEq] at h
          refine ⟨?_, fun hk => absurd hk.symm (by rw [← h.2.1]; exact Nat.succ_ne_zero n)⟩
          rw [← h.2.2, hc2]
          omega
        | true =>
          simp only at h
          cases hr : researchAll c subs tr2 with
          | mk rres tr3 =>
            rw [hr] at h
            have hc3 := researchAll_count c subs tr2 rres tr3 hr
            cases rres with
            | error e =>
              simp only [Prod.mk.injEq] at h
              refine ⟨?_, fun hk => absurd hk.symm (by rw [← h.2.1]; exact Nat.succ_ne_zero n)⟩
              rw [← h.2.2, hc3, hc2]
              omega
            | ok fs2 =>
              simp only at h
              cases he : extraPasses c subs n fs2 tr3 with
              | mk res2 ktr =>
                rw [he] at h
                simp only [Prod.mk.injEq] at h
                have := ih fs2 tr3 res2 ktr.1 ktr.2 (by rw [he])
                have htr1 : ktr.2 = tr1 := h.2.2
                have hk : k = ktr.1 + 1 := h.2.1.symm
                constructor
                · rw [← htr1]
                  calc countJudgeCalls ktr.2 ≤ countJudgeCalls tr3 + n := this.1
                    _ = countJudgeCalls tr + 1 + n := by rw [hc3, hc2]
                    _ = countJudgeCalls tr + (n + 1) := by omega
                · intro hkf
                  have : ktr.1 = n := by omega
                  have heq := (ih fs2 tr3 res2 ktr.1 ktr.2 (by rw [he])).2 this
                  rw [← htr1, heq, hc3, hc2]
                  omega

/-- Inversion of a successful pipeline run into its four stages. -/
theorem research_pipeline_ok_inv (c : Provider) (q : String) (out : PipelineResult)
    (k : Nat) (tr : Trace) (h : research_pipeline c q = (.ok out, k, tr)) :
    ∃ (tr1 : Trace) (fs0 : List String) (tr2 : Trace) (ke : Nat) (tr3 : Trace),
      split_into_subtopics c q [] = (.ok out.subtopics, tr1) ∧
      researchAll c out.subtopics tr1 = (.ok fs0, tr2) ∧
      extraPasses c out.subtopics 2 fs0 tr2 = (.ok out.findings, ke, tr3) ∧
      synthesize_report c q out.findings tr3 = (.ok out.final_report, tr) ∧
      k = 1 + ke := by
  unfold research_pipeline at h
  cases hs : split_into_subtopics c q [] with
  | mk sres tr1 =>
    rw [hs] at h
    cases sres with
    | error e => simp at h
    | ok subs =>
      simp only at h
      cases hr : researchAll c subs tr1 with
      | mk rres tr2 =>
        rw [hr] at h
        cases rres with
        | error e => simp at h
        | ok fs0 =>
          simp only at h
          cases he : extraPasses c subs 2 fs0 tr2 with
          | mk eres ktr =>
            rw [he] at h
            cases ktr with
            | mk ke tr3 =>
              cases eres with
              | error e => simp at h
              | ok fs1 =>
                simp only at h
                cases hy : synthesize_report c q fs1 tr3 with
                | mk yres tr4 =>
                  rw [hy] at h
                  cases yres with
                  | error e => simp at h
                  | ok rep =>
                    simp only [Prod.mk.injEq, Except.ok.injEq] at h
                    obtain ⟨hout, hk, htr⟩ := h
                    subst hout
                    subst htr
                    exact ⟨tr1, fs0, tr2, ke, tr3, by simpa using hs, by simpa using hr,
                      by simpa using he, by simpa using hy, hk.symm⟩

/-- In every successful run the final findings are positionally aligned with
the subtopics: entry `i` is the summary the research call produced for
subtopic `i`. -/
theorem pipeline_findings_align (c : Provider) (q : String) (out : PipelineResult)
    (k : Nat) (tr : Trace) (h : research_pipeline c q = (.ok out, k, tr)) :
    List.Forall₂ (fun s f => (research_subtopic c s []).1 = .ok f) out.subtopics out.findings := by
  obtain ⟨tr1, fs0, tr2, ke, tr3, _, hr, he, _, _⟩ := research_pipeline_ok_inv c q out k tr h
  rcases extraPasses_findings c out.subtopics 2 fs0 tr2 out.findings ke tr3 he with hsame | hfresh
  · rw [hsame]
    exact researchAll_align c out.subtopics tr1 fs0 tr2 hr
  · refine researchAll_align c out.subtopics [] out.findings (researchAll c out.subtopics []).2 ?_
    rw [← hfresh]

/-- C1: when the provider answers the split prompt with `not a list`, the code
hands the stripped reply to the Python evaluator as code (`eval(text)`,
modelled by `PErr.pythonEval`): the run dies with whatever the evaluator does,
and no structured `MalformedSplitResponse` error is ever produced — the error
type of the embedding has no such constructor because the source has no such
error path. -/
theorem C1_malformed_split_reply_is_evaluated :
    split_into_subtopics provSplitNotAList "Compare solar vs wind energy" [] =
      (.error (PErr.pythonEval "not a list"),
        [splitPrompt "Compare solar vs wind energy"]) := rfl

/-- C2: if the split and the first research pass succeed and every judge
consultation answers `yes`, the pipeline performs exactly 3 research passes
(the initial one plus both extra loop iterations, never a fourth) and then
issues the synthesis call. -/
theorem C2_judge_always_yes_three_passes (client : Provider) (q : String)
    (subs fs0 : List String) (tr1 tr2 : Trace)
    (hsplit : split_into_subtopics client q [] = (.ok subs, tr1))
    (hres : researchAll client subs tr1 = (.ok fs0, tr2))
    (hyes : ∀ fs : List String, ∃ r, client (judgePrompt fs) = .ok r ∧
      pyLower (pyStrip r) = "yes") :
    (research_pipeline client q).2.1 = 3 ∧
      synthPrompt q fs0 ∈ (research_pipeline client q).2.2 := by
  obtain ⟨δr, hδr⟩ : ∃ δr, (researchAll client subs []).2 = δr := ⟨_, rfl⟩
  have hres0 : (researchAll client subs []).1 = .ok fs0 := by
    rw [researchAll_shift client subs tr1] at hres
    have := congrArg Prod.fst hres
    simpa using this
  have hresAt : ∀ tr : Trace, researchAll client subs tr = (.ok fs0, tr ++ δr) := by
    intro tr
    rw [researchAll_shift client subs tr, hres0, hδr]
  have hjudge : ∀ (fs : List String) (tr : Trace),
      needs_more_research client fs tr = (.ok true, tr ++ [judgePrompt fs]) := by
    intro fs tr
    obtain ⟨r, hr, hnorm⟩ := hyes fs
    rw [needs_more_research_eval client fs tr r hr]
    simp [hnorm]
  have hex : extraPasses client subs 2 fs0 tr2 =
      (.ok fs0, 2, tr2 ++ [judgePrompt fs0] ++ δr ++ [judgePrompt fs0] ++ δr) := by
    show extraPasses client subs (Nat.succ (Nat.succ 0)) fs0 tr2 = _
    rw [extraPasses, hjudge]
    simp only
    rw [hresAt]
    simp only
    rw [extraPasses, hjudge]
    simp only
    rw [hresAt]
    simp only
    rw [extraPasses]
  have hsynthTr : ∀ tr : Trace,
      (synthesize_report client q fs0 tr).2 = tr ++ [synthPrompt q fs0] := by
    intro tr
    cases hc : client (synthPrompt q fs0) <;> simp [synthesize_report, callLLM, hc]
  simp only [research_pipeline, hsplit, hres, hex]
  cases hy : synthesize_report client q fs0
      (tr2 ++ [judgePrompt fs0] ++ δr ++ [judgePrompt fs0] ++ δr) with
  | mk yres tr4 =>
    have htr4 : tr4 = tr2 ++ [judgePrompt fs0] ++ δr ++ [judgePrompt fs0] ++ δr
        ++ [synthPrompt q fs0] := by
      have := hsynthTr (tr2 ++ [judgePrompt fs0] ++ δr ++ [judgePrompt fs0] ++ δr)
      rw [hy] at this
      exact this
    cases yres with
    | error e => simp [htr4]
    | ok rep => simp [htr4]

/-- C2 witness: a concrete all-`yes` provider reaches pass count 3 and the
synthesis call. -/
theorem C2_witness :
    (research_pipeline provAllYes "q").2.1 = 3 ∧
      synthPrompt "q" ["sum", "sum", "sum"] ∈ (research_pipeline provAllYes "q").2.2 :=
  C2_judge_always_yes_three_passes provAllYes "q" ["a", "b", "c"] ["sum", "sum", "sum"]
    [splitPrompt "q"]
    [splitPrompt "q", researchPrompt "a", researchPrompt "b", researchPrompt "c"]
    rfl rfl (fun _fs => ⟨"yes", rfl, rfl⟩)

/-- C3: if the split and the first research pass succeed and the judge answers
anything but `yes` on the findings of that first pass, the pipeline performs
exactly one research pass: the loop breaks at once and whatever run completes
carries the first-pass findings unchanged. -/
theorem C3_judge_no_single_pass (client : Provider) (q : String)
    (subs fs0 : List String) (tr1 tr2 : Trace)
    (hsplit : split_into_subtopics client q [] = (.ok subs, tr1))
    (hres : researchAll client subs tr1 = (.ok fs0, tr2))
    (hjudge : ∃ r, client (judgePrompt fs0) = .ok r ∧ pyLower (pyStrip r) ≠ "yes") :
    (research_pipeline client q).2.1 = 1 ∧
      ∀ out : PipelineResult, (research_pipeline client q).1 = .ok out →
        out.findings = fs0 := by
  obtain ⟨r, hr, hnorm⟩ := hjudge
  have hex : extraPasses client subs 2 fs0 tr2 = (.ok fs0, 0, tr2 ++ [judgePrompt fs0]) := by
    show extraPasses client subs (Nat.succ (Nat.succ 0)) fs0 tr2 = _
    rw [extraPasses, needs_more_research_eval client fs0 tr2 r hr, decide_eq_false hnorm]
  simp only [research_pipeline, hsplit, hres, hex]
  cases hy : synthesize_report client q fs0 (tr2 ++ [judgePrompt fs0]) with
  | mk yres tr4 =>
    cases yres with
    | error e =>
      refine ⟨rfl, ?_⟩
      intro out hout
      simp at hout
    | ok rep =>
      refine ⟨rfl, ?_⟩
      intro out hout
      simp only [Except.ok.injEq] at hout
      rw [← hout]

/-- C3 witness: a concrete judge-says-`No` provider stops after one pass and
returns the first-pass findings. -/
theorem C3_witness :
    (research_pipeline provJudgeNo "q").2.1 = 1 ∧
      (⟨["a", "b", "c"], ["sum", "sum", "sum"], "sum"⟩ : PipelineResult).findings =
        ["sum", "sum", "sum"] :=
  have h := C3_judge_no_single_pass provJudgeNo "q" ["a", "b", "c"] ["sum", "sum", "sum"]
    [splitPrompt "q"]
    [splitPrompt "q", researchPrompt "a", researchPrompt "b", researchPrompt "c"]
    rfl rfl ⟨" No", rfl, by decide⟩
  ⟨h.1, h.2 ⟨["a", "b", "c"], ["sum", "sum", "sum"], "sum"⟩ rfl⟩

/-- C4: after every research pass (the initial one and every extra pass is an
application of the fan-out `researchAll`) the findings have the same length as
the subtopics and entry `i` is the summary researched for subtopic `i`; the
judge loop's final findings are either the untouched input or one wholesale
fan-out output over the unchanged subtopic list (never a merge); and the
successful pipeline's final findings are aligned the same way. -/
theorem C4_findings_alignment :
    (∀ (client : Provider) (subs : List String) (tr : Trace) (fs : List String) (tr1 : Trace),
      researchAll client subs tr = (.ok fs, tr1) →
      fs.length = subs.length ∧
        ∀ (i : Nat) (hi : i < subs.length) (hf : i < fs.length),
          (research_subtopic client (subs.get ⟨i, hi⟩) []).1 = .ok (fs.get ⟨i, hf⟩)) ∧
    (∀ (client : Provider) (subs : List String) (fuel : Nat) (fs : List String) (tr : Trace)
      (res : List String) (k : Nat) (tr1 : Trace),
      extraPasses client subs fuel fs tr = (.ok res, k, tr1) →
      res = fs ∨ (researchAll client subs []).1 = .ok res) ∧
    (∀ (client : Provider) (q : String) (out : PipelineResult) (k : Nat) (tr : Trace),
      research_pipeline client q = (.ok out, k, tr) →
      out.findings.length = out.subtopics.length ∧
        ∀ (i : Nat) (hi : i < out.subtopics.length) (hf : i < out.findings.length),
          (research_subtopic client (out.subtopics.get ⟨i, hi⟩) []).1 =
            .ok (out.findings.get ⟨i, hf⟩)) := by
  refine ⟨?_, ?_, ?_⟩
  · intro client subs tr fs tr1 h
    have := List.forall₂_iff_get.mp (researchAll_align client subs tr fs tr1 h)
    exact ⟨this.1.symm, this.2⟩
  · intro client subs fuel fs tr res k tr1 h
    exact extraPasses_findings client subs fuel fs tr res k tr1 h
  · intro client q out k tr h
    have := List.forall₂_iff_get.mp (pipeline_findings_align client q out k tr h)
    exact ⟨this.1.symm, this.2⟩

/-- C4 witness: a concrete fan-out where the alignment instantiates at
index 0. -/
theorem C4_witness :
    (["sum", "sum", "sum"] : List String).length = (["a", "b", "c"] : List String).length ∧
      (research_subtopic provAllYes "a" []).1 = .ok "sum" := by
  have h := C4_findings_alignment.1 provAllYes ["a", "b", "c"] [splitPrompt "q"]
    ["sum", "sum", "sum"]
    [splitPrompt "q", researchPrompt "a", researchPrompt "b", researchPrompt "c"] rfl
  exact ⟨h.1, h.2 0 (by decide) (by decide)⟩

/-- C5: whenever the provider answers the judge prompt with any string `r`,
`needs_more_research` returns exactly the boolean "stripped, lower-cased `r`
equals `yes`" — true iff the normalized reply is `yes`, false for everything
else including malformed output — and it never turns a reply into an error. -/
theorem C5_judge_yes_normalization (client : Provider) (fs : List String) (tr : Trace)
    (r : String) (h : client (judgePrompt fs) = .ok r) :
    needs_more_research client fs tr =
      (.ok (decide (pyLower (pyStrip r) = "yes")), tr ++ [judgePrompt fs]) ∧
      (decide (pyLower (pyStrip r) = "yes") = true ↔ pyLower (pyStrip r) = "yes") :=
  ⟨needs_more_research_eval client fs tr r h, decide_eq_true_iff⟩

/-- C5 witness: the judge maps the reply ` No` to a plain `false`, with no
error. -/
theorem C5_witness :
    needs_more_research provJudgeNo ["f"] [] = (.ok false, [judgePrompt ["f"]]) :=
  (C5_judge_yes_normalization provJudgeNo ["f"] [] " No" rfl).1

/-- C6 counterexample: a provider that answers the split prompt with a
well-formed two-element list makes the run complete with 2 subtopics and 2
findings — the code never enforces the length 3 the claim promises. -/
theorem C6_counterexample :
    (research_pipeline provTwoSubs "q").1 = .ok ⟨["a", "b"], ["s", "s"], "s"⟩ ∧
      (["s", "s"] : List String).length ≠ 3 :=
  ⟨rfl, by decide⟩

/-- C6 amended: the splitter returns exactly whatever list the provider's
reply parses to, with no length check; in particular, when the reply parses to
a list of exactly 3 strings, the subtopics and the final findings both have
length 3. -/
theorem C6_length_tracks_parsed_reply :
    (∀ (client : Provider) (q : String) (tr : Trace) (r : String) (xs : List String),
      client (splitPrompt q) = .ok r → parsePyStrList (pyStrip r) = some xs →
      split_into_subtopics client q tr = (.ok xs, tr ++ [splitPrompt q])) ∧
    (∀ (client : Provider) (q : String) (out : PipelineResult) (k : Nat) (tr : Trace)
      (r : String) (xs : List String),
      research_pipeline client q = (.ok out, k, tr) →
      client (splitPrompt q) = .ok r → parsePyStrList (pyStrip r) = some xs →
      xs.length = 3 →
      out.subtopics.length = 3 ∧ out.findings.length = 3) := by
  have hfst : ∀ (client : Provider) (q : String) (tr : Trace) (r : String) (xs : List String),
      client (splitPrompt q) = .ok r → parsePyStrList (pyStrip r) = some xs →
      split_into_subtopics client q tr = (.ok xs, tr ++ [splitPrompt q]) := by
    intro client q tr r xs hr hp
    simp [split_into_subtopics, callLLM, hr, hp]
  refine ⟨hfst, ?_⟩
  intro client q out k tr r xs hrun hr hp hlen
  obtain ⟨tr1, fs0, tr2, ke, tr3, hsplit0, _, _, _, _⟩ :=
    research_pipeline_ok_inv client q out k tr hrun
  have hsubs : out.subtopics = xs := by
    have h2 := hfst client q [] r xs hr hp
    rw [hsplit0] at h2
    have := congrArg Prod.fst h2
    simpa using this
  have hflen := (List.forall₂_iff_get.mp
    (pipeline_findings_align client q out k tr hrun)).1
  constructor
  · rw [hsubs, hlen]
  · rw [← hflen, hsubs, hlen]

/-- C6 witness: in the worked scenario the split reply parses to 3 subtopics
and both output sequences have length 3. -/
theorem C6_witness :
    (["Solar cost trends", "Wind cost trends", "Environmental impact"] :
      List String).length = 3 ∧
      (["summary one", "summary two", "summary three"] : List String).length = 3 :=
  C6_length_tracks_parsed_reply.2 provScenario "Compare solar vs wind energy"
    ⟨["Solar cost trends", "Wind cost trends", "Environmental impact"],
     ["summary one", "summary two", "summary three"], "Final report."⟩ _ _
    "[\"Solar cost trends\", \"Wind cost trends\", \"Environmental impact\"]"
    ["Solar cost trends", "Wind cost trends", "Environmental impact"]
    rfl rfl rfl rfl

/-- C7 counterexample: in the spec's worked example (three subtopics, one
summary each, judge says no on the first check) the pipeline makes 6 provider
calls — split, three research calls, one judge call, one synthesis call — not
the 5 the claim states (the claim's `1 + 3 + 1` forgets the judge call that
the scenario itself says happened). -/
theorem C7_counterexample :
    (research_pipeline provScenario "Compare solar vs wind energy").2.2.length = 6 ∧
      (6 : Nat) ≠ 5 :=
  ⟨rfl, by decide⟩

/-- C7 amended: the worked example returns 3 subtopics, 3 findings and a
non-empty report, having made exactly 6 provider calls
(1 split + 3 research + 1 judge + 1 synthesis). -/
theorem C7_example_scenario :
    (research_pipeline provScenario "Compare solar vs wind energy").1 =
      .ok ⟨["Solar cost trends", "Wind cost trends", "Environmental impact"],
           ["summary one", "summary two", "summary three"], "Final report."⟩ ∧
      "Final report." ≠ "" ∧
      (research_pipeline provScenario "Compare solar vs wind energy").2.2.length = 6 :=
  ⟨rfl, by decide, rfl⟩

/-- C8: a split-call failure aborts the run before any research call is made
(the trace holds the split prompt alone), and a run can only return a report
when every single provider call it issued succeeded — so any one failure at
any stage forfeits the whole run, with no retry, and a completed run's
findings are never partial (their length matches the subtopics). -/
theorem C8_any_failure_is_fatal :
    (∀ (client : Provider) (q : String) (e : String),
      client (splitPrompt q) = .error e →
      research_pipeline client q = (.error (PErr.provider e), 0, [splitPrompt q])) ∧
    (∀ (client : Provider) (q : String) (out : PipelineResult) (k : Nat) (tr : Trace),
      research_pipeline client q = (.ok out, k, tr) →
      (∀ p ∈ tr, callSucceeds client p) ∧
        out.findings.length = out.subtopics.length) := by
  constructor
  · intro client q e h
    simp [research_pipeline, split_into_subtopics, callLLM, h]
  · intro client q out k tr hrun
    obtain ⟨tr1, fs0, tr2, ke, tr3, hsplit0, hres, hex, hsyn, _⟩ :=
      research_pipeline_ok_inv client q out k tr hrun
    have h0 : ∀ p ∈ ([] : Trace), callSucceeds client p := by simp
    have h1 := split_calls client q [] out.subtopics tr1 hsplit0 h0
    have h2 := researchAll_calls client out.subtopics tr1 fs0 tr2 hres h1
    have h3 := extraPasses_calls client out.subtopics 2 fs0 tr2 out.findings ke tr3 hex h2
    have h4 := synthesize_report_calls client q out.findings tr3 out.final_report tr hsyn h3
    have hlen := (List.forall₂_iff_get.mp (pipeline_findings_align client q out k tr hrun)).1
    exact ⟨h4, hlen.symm⟩

/-- C8 witness: a concrete provider whose split call raises makes the whole
run fail with only the split prompt ever sent. -/
theorem C8_witness :
    research_pipeline provFailSplit "q" =
      (.error (PErr.provider "network error"), 0, [splitPrompt "q"]) :=
  C8_any_failure_is_fatal.1 provFailSplit "q" "network error" rfl

/-- C9: in every run whatsoever the judge is consulted at most 2 times, and a
completed run with 3 research passes consulted the judge exactly 2 times — in
particular the findings of the second extra pass go to the synthesizer without
any further sufficiency check. -/
theorem C9_judge_at_most_twice :
    (∀ (client : Provider) (q : String),
      countJudgeCalls (research_pipeline client q).2.2 ≤ 2) ∧
    (∀ (client : Provider) (q : String) (out : PipelineResult) (k : Nat) (tr : Trace),
      research_pipeline client q = (.ok out, k, tr) → k = 3 →
      countJudgeCalls tr = 2) := by
  constructor
  · intro client q
    unfold research_pipeline
    cases hs : split_into_subtopics client q [] with
    | mk sres tr1 =>
      have hc1 : countJudgeCalls tr1 = 0 := by
        have := split_count client q [] sres tr1 hs
        simpa [countJudgeCalls] using this
      cases sres with
      | error e =>
        simp only
        omega
      | ok subs =>
        simp only
        cases hr : researchAll client subs tr1 with
        | mk rres tr2 =>
          have hc2 := researchAll_count client subs tr1 rres tr2 hr
          cases rres with
          | error e =>
            simp only
            omega
          | ok fs0 =>
            simp only
            cases he : extraPasses client subs 2 fs0 tr2 with
            | mk eres ktr =>
              cases ktr with
              | mk ke tr3 =>
                have hc3 := (extraPasses_count client subs 2 fs0 tr2 eres ke tr3 he).1
                cases eres with
                | error e =>
                  simp only
                  omega
                | ok fs1 =>
                  simp only
                  cases hy : synthesize_report client q fs1 tr3 with
                  | mk yres tr4 =>
                    have hc4 := synth_count client q fs1 tr3 yres tr4 hy
                    cases yres with
                    | error e =>
                      simp only
                      omega
                    | ok rep =>
                      simp only
                      omega
  · intro client q out k tr hrun hk3
    obtain ⟨tr1, fs0, tr2, ke, tr3, hsplit0, hres, hex, hsyn, hk⟩ :=
      research_pipeline_ok_inv client q out k tr hrun
    have hke : ke = 2 := by omega
    have hc1 : countJudgeCalls tr1 = 0 := by
      have := split_count client q [] (.ok out.subtopics) tr1 hsplit0
      simpa [countJudgeCalls] using this
    have hc2 := researchAll_count client out.subtopics tr1 (.ok fs0) tr2 hres
    have hc3 := (extraPasses_count client out.subtopics 2 fs0 tr2 (.ok out.findings)
      ke tr3 hex).2 hke
    have hc4 := synth_count client q out.findings tr3 (.ok out.final_report) tr hsyn
    omega

/-- C9 witness: in the all-`yes` run the final trace holds exactly 2 judge
prompts. -/
theorem C9_witness :
    countJudgeCalls (research_pipeline provAllYes "q").2.2 = 2 :=
  C9_judge_at_most_twice.2 provAllYes "q"
    ⟨["a", "b", "c"], ["sum", "sum", "sum"], "sum"⟩ _ _ rfl rfl

/-- C10: with the completion provider a deterministic function of the prompt,
the pipeline is deterministic — two runs with the same query against
extensionally equal providers return identical results (same subtopics,
findings, report, pass count and trace). -/
theorem C10_deterministic (p1 p2 : Provider) (q : String) (h : ∀ s, p1 s = p2 s) :
    research_pipeline p1 q = research_pipeline p2 q := by
  have hp : p1 = p2 := funext h
  rw [hp]

/-- C10 witness: determinism instantiated at the worked-example provider. -/
theorem C10_witness :
    research_pipeline provScenario "Compare solar vs wind energy" =
      research_pipeline provScenario "Compare solar vs wind energy" :=
  C10_deterministic provScenario provScenario "Compare solar vs wind energy" (fun _s => rfl)

end ScholarAI
